import Mathlib

/-!
Formal model of the Neon karaoke bot (repository `Thatsrijan/Neon`).

The repository is a Discord bot built of four Python files:
  * `Neon/cogs/settings.py` — `SettingsManager` (a JSON-file key-value store
    of per-guild settings) and the `/setdelay`, `/getdelay` slash commands;
  * `Neon/cogs/karaoke.py` — lyrics fetching (Genius search + page scrape,
    lyrics.ovh fallback) and the `+lyrics` / `/lyrics` commands;
  * `Neon/bot.py` — bot setup, status rotation, mention replies and the
    DM auto-reply handler `on_message`;
  * `Neon/keepalive.py` — a trivial web server.

This file gives a shallow embedding of those parts in Lean.  Python floats
are modelled as rationals (`ℚ`); only order comparisons and exact storage
round trips occur, so this is faithful to observable behaviour.  Effectful
steps (HTTP requests, regex extraction on fetched HTML, the set of users
seen so far) are passed in explicitly as environment values.  Python dicts
whose keys matter are modelled as association lists.

The karaoke *session engine* (per-channel state machine with
pause/resume/stop, the session registry, and the playback driver) that the
design document describes is not present in the source tree; it is modelled
here directly from the specification text (each such definition is marked
`Modelled from the spec:`).
-/

/-! ## Settings store (`Neon/cogs/settings.py`) -/

/-- A guild's settings object (`data[str(guild_id)]` in `settings.json`),
reduced to its `"default_delay"` entry: `none` when the key is absent.
No other key of the per-guild object is ever read or written by the code. -/
abbrev GuildObj := Option ℚ

/-- The parsed contents of `settings.json`: guild id ↦ settings object. -/
abbrev SettingsData := List (Nat × GuildObj)

/-- `SettingsManager.get_guild`: `data.get(str(guild_id), {})`. -/
def get_guild (data : SettingsData) (g : Nat) : GuildObj :=
  (data.lookup g).getD none

/-- `SettingsManager.set_guild`: `data[str(guild_id)] = obj` followed by a
write of the whole file (dict update: the key is unique afterwards). -/
def set_guild (data : SettingsData) (g : Nat) (obj : GuildObj) : SettingsData :=
  (g, obj) :: data.filter (fun p => p.1 != g)

/-- `SettingsManager.set_delay`: read the guild object, set its
`"default_delay"` entry to `float(delay)`, store it back. -/
def set_delay (data : SettingsData) (g : Nat) (d : ℚ) : SettingsData :=
  set_guild data g (some d)

/-- `SettingsManager.get_delay`: `float(obj.get("default_delay", default))`;
the Python signature defaults `default` to `2.0`. -/
def get_delay (data : SettingsData) (g : Nat) (default : ℚ) : ℚ :=
  (get_guild data g).getD default

/-- The caller-visible outcome of the `/setdelay` slash command. -/
inductive SetDelayOutcome
  | guildOnly   -- "This command must be used in a server (guild)."
  | outOfRange  -- "Delay must be between 0.1 and 10 seconds."
  | ok          -- "✅ Default karaoke delay set to ... seconds ..."
deriving DecidableEq, Repr

/-- `SettingsCog.setdelay`: reject outside a guild; reject
`delay < 0.1 or delay > 10` before touching the store; otherwise store the
delay and confirm.  Returns the reply sent and the resulting store. -/
def setdelay (inGuild : Bool) (g : Nat) (delay : ℚ) (data : SettingsData) :
    SetDelayOutcome × SettingsData :=
  if !inGuild then (.guildOnly, data)
  else if delay < 1/10 ∨ delay > 10 then (.outOfRange, data)
  else (.ok, set_delay data g delay)

/-! ## Karaoke session state machine

Modelled from the spec: the karaoke engine (per-channel session state
machine, session registry and playback driver) described in the design
document is not present in the source tree — `cogs/karaoke.py` holds only
the lyrics-fetch commands.  The definitions in this section follow the
specification text (§3 Data model, §4.2 state machine, §4.5 launcher,
lifecycle notes) directly. -/

/-- Modelled from the spec: session states — `Running` (initial),
`Paused`, `Stopped` (terminal). -/
inductive SessionState
  | Running
  | Paused
  | Stopped
deriving DecidableEq, Repr

/-- Modelled from the spec: a `KaraokeSession` — channel key, state,
control-surface id, ownership of the in-flight playback task, lines,
cursor, and the per-session delay. -/
structure KaraokeSession where
  channelId : Nat
  state : SessionState
  controlSurfaceId : Option Nat
  taskAlive : Bool
  lines : List String
  cursor : Nat
  delaySeconds : ℚ
deriving DecidableEq, Repr

/-- Modelled from the spec: `pause()` — valid only from `Running`
(one notification); no-op (no notification) if already `Paused` or
`Stopped`.  Returns the session and the number of user-visible notices. -/
def KaraokeSession.pause (s : KaraokeSession) : KaraokeSession × Nat :=
  match s.state with
  | .Running => ({ s with state := .Paused }, 1)
  | _ => (s, 0)

/-- Modelled from the spec: `resume()` — valid only from `Paused`
(one notification); no-op if already `Running` or `Stopped`. -/
def KaraokeSession.resume (s : KaraokeSession) : KaraokeSession × Nat :=
  match s.state with
  | .Paused => ({ s with state := .Running }, 1)
  | _ => (s, 0)

/-- Modelled from the spec: `stop()` — valid from `Running` or `Paused`,
cancels the owned playback task, produces one "stopped" notice; calling
stop on an already-`Stopped` session is a no-op with no notice. -/
def KaraokeSession.stop (s : KaraokeSession) : KaraokeSession × Nat :=
  match s.state with
  | .Stopped => (s, 0)
  | _ => ({ s with state := .Stopped, taskAlive := false }, 1)

/-- A concrete already-stopped session, used to instantiate theorems. -/
def sampleStopped : KaraokeSession :=
  ⟨1, .Stopped, some 5, false, ["la", "la"], 0, 2⟩

/-- A concrete running session, used to instantiate theorems. -/
def sampleRunning : KaraokeSession :=
  ⟨1, .Running, some 5, true, ["la", "la"], 0, 2⟩

/-! ## Session registry under interleaved operations

Modelled from the spec: the registry maps each channel to at most one
session; a launch supersedes (stops) any live session for its channel
before registering the new one; an explicit stop or the driver's
completion cleanup marks the session `Stopped` and removes the registry
entry, guarding by session identity (§3 lifecycle, §4.5, §9). -/

/-- Modelled from the spec: the record of one created session as the
registry sees it — its identity (generation), channel, and state. -/
structure RegSession where
  sid : Nat
  channel : Nat
  state : SessionState
deriving DecidableEq, Repr

/-- Modelled from the spec: the process-wide picture — every session
created so far, the registry (channel ↦ session identity), and the next
fresh session identity. -/
structure World where
  sessions : List RegSession
  registry : List (Nat × Nat)
  nextSid : Nat
deriving Repr

/-- Mark the session with the given identity `Stopped` (task cancelled). -/
def markStopped (l : List RegSession) (sid : Nat) : List RegSession :=
  l.map (fun s => if s.sid = sid then { s with state := .Stopped } else s)

/-- Modelled from the spec: `launch` for a channel — stop any live session
the registry holds for that channel (supersession), create a fresh
`Running` session, and register it. -/
def World.launch (w : World) (ch : Nat) : World :=
  let survivors :=
    match w.registry.lookup ch with
    | some sid => markStopped w.sessions sid
    | none => w.sessions
  { sessions := survivors ++ [⟨w.nextSid, ch, .Running⟩],
    registry := (ch, w.nextSid) :: w.registry.filter (fun p => p.1 != ch),
    nextSid := w.nextSid + 1 }

/-- Modelled from the spec: terminal cleanup for a channel (explicit stop,
stop reaction, or the driver running out of lines) — mark the registered
session `Stopped` and remove the registry entry; no-op when the channel
has no registered session. -/
def World.terminate (w : World) (ch : Nat) : World :=
  match w.registry.lookup ch with
  | some sid =>
    { sessions := markStopped w.sessions sid,
      registry := w.registry.filter (fun p => p.1 != ch),
      nextSid := w.nextSid }
  | none => w

/-- The operations whose interleavings drive the registry. -/
inductive KaraokeOp
  | launch (ch : Nat)
  | stop (ch : Nat)      -- explicit stop command or stop reaction
  | complete (ch : Nat)  -- playback driver ran out of lines
deriving DecidableEq, Repr

/-- One step of the registry under an operation. -/
def World.step (w : World) : KaraokeOp → World
  | .launch ch => w.launch ch
  | .stop ch => w.terminate ch
  | .complete ch => w.terminate ch

/-- The initial world: no sessions, empty registry. -/
def World.init : World := ⟨[], [], 0⟩

/-- Run an arbitrary interleaving of operations from process start. -/
def runOps (ops : List KaraokeOp) : World :=
  ops.foldl World.step World.init

/-- A session is live when it is not in the terminal state. -/
def RegSession.live (s : RegSession) : Bool := s.state != .Stopped

/-- Number of live sessions for a channel. -/
def liveCount (w : World) (ch : Nat) : Nat :=
  (w.sessions.filter (fun s => s.live && (s.channel == ch))).length

/-- The inductive invariant: every live session is the one its channel's
registry entry names; session identities are distinct and below the next
fresh identity. -/
def WorldInv (w : World) : Prop :=
  (∀ s ∈ w.sessions, s.state ≠ .Stopped → w.registry.lookup s.channel = some s.sid) ∧
  (w.sessions.map (·.sid)).Nodup ∧
  (∀ s ∈ w.sessions, s.sid < w.nextSid)

/-! ## Lyrics fetching (`Neon/cogs/karaoke.py`)

The fetchers are async HTTP clients; their effectful steps (HTTP status
and body, regex extraction over the fetched HTML) enter the model as
explicit environment values, and the functions below reproduce the
source's control flow over them. -/

/-- A result dict as returned by the fetchers: an association list of
string keys to string values, mirroring the Python dict literals. -/
abbrev LyricsDict := List (String × String)

/-- Python `str.strip()`: remove leading and trailing whitespace. -/
def pyStrip (s : String) : String :=
  String.mk
    (((s.toList.dropWhile Char.isWhitespace).reverse.dropWhile
      Char.isWhitespace).reverse)

/-- Python `x or "Unknown"` on an optional string: `None` and the empty
string are both falsy. -/
def pyOr (s : Option String) (d : String) : String :=
  match s with
  | none => d
  | some t => if t = "" then d else t

/-- `split_artist_title`: if `" - "` occurs, split on its first
occurrence and strip both parts, else no artist and the stripped query. -/
def split_artist_title (query : String) : Option String × String :=
  match query.splitOn " - " with
  | [] => (none, pyStrip query)
  | [_] => (none, pyStrip query)
  | a :: rest => (some (pyStrip a), pyStrip (String.intercalate " - " rest))

/-- What the external world serves on one attempt of
`fetch_lyrics_from_genius_async`'s retry loop. -/
inductive GeniusAttempt
  | searchDown  -- exception raised, or non-200 search status: sleep and retry
  | noHits      -- search 200 with an empty hit list: return None
  | hitNoPath (title artist : Option String)  -- top hit has no path: return None
  | pageDown (title artist : Option String)   -- song page non-200: sleep and retry
  | pageOk (title artist : Option String) (segs : List String)
      -- song page 200; `segs` are the raw segments the extraction regexes found
deriving Repr

/-- The retry loop of `fetch_lyrics_from_genius_async`, over the list of
attempt outcomes the environment serves (the source runs `retries + 1`
attempts).  `cleanPart` abstracts the per-segment cleanup (the two
`re.sub` calls and the strip); cleaned-empty segments are dropped and the
rest joined with a blank line.  An empty extraction yields a *successful*
dict whose `"lyrics"` entry is the empty string. -/
def geniusAttempts (cleanPart : String → String) :
    List GeniusAttempt → Option LyricsDict
  | [] => none
  | .searchDown :: rest => geniusAttempts cleanPart rest
  | .noHits :: _ => none
  | .hitNoPath _ _ :: _ => none
  | .pageDown _ _ :: rest => geniusAttempts cleanPart rest
  | .pageOk title artist segs :: _ =>
    if segs.isEmpty then
      some [("title", pyOr title "Unknown"), ("artist", pyOr artist "Unknown"),
            ("lyrics", "")]
    else
      let clean := (segs.map cleanPart).filter (fun p => p != "")
      some [("title", pyOr title "Unknown"), ("artist", pyOr artist "Unknown"),
            ("lyrics", String.intercalate "\n\n" clean)]

/-- `fetch_lyrics_from_genius_async`: without a `GENIUS_API_TOKEN` the
Genius path is skipped (`None`); otherwise the retry loop runs. -/
def fetch_lyrics_from_genius_async (tokenSet : Bool) (cleanPart : String → String)
    (attempts : List GeniusAttempt) : Option LyricsDict :=
  if tokenSet then geniusAttempts cleanPart attempts else none

/-- `fetch_lyrics_from_lyrics_ovh`: requires an `"Artist - Title"` query;
`resp` is the `"lyrics"` field of a successfully fetched and parsed
response (`none` for any HTTP error, non-200 status, empty body or
exception).  An empty lyrics field is rejected. -/
def fetch_lyrics_from_lyrics_ovh (query : String) (resp : Option String) :
    Option LyricsDict :=
  match split_artist_title query with
  | (none, _) => none
  | (some artist, title) =>
    match resp with
    | none => none
    | some lyrics =>
      if lyrics = "" then none
      else some [("title", title), ("artist", artist), ("lyrics", lyrics)]

/-- A user-visible message sent by the lyrics command handler. -/
inductive LyricsNotice
  | couldNotFetch (query : String)               -- "❌ Could not fetch lyrics ..."
  | foundButNoText (title artist used : String)  -- "ℹ️ Found ... no lyrics text was scraped."
  | header (title artist used : String)          -- "🎶 Lyrics for ..."
  | chunk (text : String)                        -- one fenced 1900-char block
deriving DecidableEq, Repr

/-- The `lyrics[i:i+1900]` slices sent as chunks, in order. -/
def chunksOf1900 (cs : List Char) : List (List Char) :=
  if h : cs = [] then []
  else cs.take 1900 :: chunksOf1900 (cs.drop 1900)
termination_by cs.length
decreasing_by
  simp only [List.length_drop]
  have : 0 < cs.length := List.length_pos.mpr h
  omega

/-- The `+lyrics` command body (`lyrics_prefix` in the source; the
`/lyrics` slash command repeats it verbatim): try Genius, fall back to
lyrics.ovh only when Genius returned `None`, send one could-not-fetch
notice when both fail, one found-but-no-text notice when the result's
lyrics are whitespace, else a header plus the chunked lyrics.  Returns
the notices sent, in order. -/
def lyrics_command (query : String) (geniusRes ovhRes : Option LyricsDict) :
    List LyricsNotice :=
  let resUsed : Option LyricsDict × String :=
    match geniusRes with
    | some r => (some r, "genius")
    | none =>
      match ovhRes with
      | some r => (some r, "lyrics.ovh")
      | none => (none, "none")
  match resUsed with
  | (none, _) => [.couldNotFetch query]
  | (some d, used) =>
    let title := (d.lookup "title").getD "Unknown"
    let artist := (d.lookup "artist").getD "Unknown"
    let lyrics := (d.lookup "lyrics").getD ""
    if pyStrip lyrics = "" then [.foundButNoText title artist used]
    else .header title artist used ::
      (chunksOf1900 lyrics.toList).map (fun c => .chunk (String.mk c))

/-! ## DM auto-reply (`Neon/bot.py`, `on_message`) -/

/-- The fields of an incoming message event that the DM auto-reply logic
reads: the author's id, whether the author is a bot, and whether the
message is a direct message (`message.guild is None`). -/
structure IncomingMsg where
  authorId : Nat
  authorIsBot : Bool
  isDM : Bool
deriving DecidableEq, Repr

/-- One `on_message` dispatch, restricted to the DM auto-reply logic:
bot authors are ignored; a direct message whose author id is not in the
in-memory replied cache adds the id to the cache and sends the auto-reply;
every other message leaves the cache alone and sends nothing.  Returns
the updated cache and whether the auto-reply was sent. -/
def on_message_dm (cache : List Nat) (m : IncomingMsg) : List Nat × Bool :=
  if m.authorIsBot then (cache, false)
  else if m.isDM then
    if m.authorId ∈ cache then (cache, false)
    else (m.authorId :: cache, true)
  else (cache, false)

/-- Number of auto-replies sent to user `u` while dispatching a trace of
messages starting from a given replied cache. -/
def dmRepliesTo (u : Nat) (cache : List Nat) : List IncomingMsg → Nat
  | [] => 0
  | m :: ms =>
    (if (on_message_dm cache m).2 && (m.authorId == u) then 1 else 0) +
      dmRepliesTo u (on_message_dm cache m).1 ms

/-- Is this message a non-bot direct message from user `u`? -/
def isDMFrom (u : Nat) (m : IncomingMsg) : Bool :=
  !m.authorIsBot && m.isDM && (m.authorId == u)

/-! ### Lookup lemmas for association-list stores -/

theorem lookup_filter_ne {β : Type} (g g' : Nat) (data : List (Nat × β)) (h : g' ≠ g) :
    (data.filter (fun p => p.1 != g)).lookup g' = data.lookup g' := by
  induction data with
  | nil => rfl
  | cons p rest ih =>
    obtain ⟨k, v⟩ := p
    rw [List.filter_cons]
    by_cases hk : k = g
    · have h1 : ((k, v).1 != g) = false := by simp [hk]
      have h2 : (g' == k) = false := by
        simp only [beq_eq_false_iff_ne, ne_eq]
        omega
      rw [h1]
      simp only [Bool.false_eq_true, if_false, ih, List.lookup, h2]
    · have h1 : ((k, v).1 != g) = true := by simp [hk]
      rw [h1, if_pos rfl]
      by_cases hg' : g' = k
      · simp [List.lookup, hg']
      · have h2 : (g' == k) = false := by simp [hg']
        simp [List.lookup, h2, ih]

theorem get_guild_set_guild_same (data : SettingsData) (g : Nat) (obj : GuildObj) :
    get_guild (set_guild data g obj) g = obj := by
  simp [get_guild, set_guild, List.lookup]

theorem get_guild_set_guild_ne (data : SettingsData) (g g' : Nat) (obj : GuildObj)
    (h : g' ≠ g) : get_guild (set_guild data g obj) g' = get_guild data g' := by
  have hb : (g' == g) = false := by simp [h]
  simp [get_guild, set_guild, List.lookup, hb, lookup_filter_ne g g' data h]

/-! ## Claims C4, C5, C8 -/

/-- C4: a karaoke delay override is accepted by `/setdelay` iff it lies in
`[0.1, 10.0]` inclusive; any value outside the range yields the
out-of-range validation reply and leaves the stored settings unmutated. -/
theorem setdelay_accepts_iff_in_range (g : Nat) (delay : ℚ) (data : SettingsData) :
    ((setdelay true g delay data).1 = .ok ↔ 1/10 ≤ delay ∧ delay ≤ 10) ∧
    ((delay < 1/10 ∨ delay > 10) →
      (setdelay true g delay data).1 = .outOfRange ∧
      (setdelay true g delay data).2 = data) := by
  have e : setdelay true g delay data =
      if delay < 1/10 ∨ delay > 10 then (.outOfRange, data)
      else (.ok, set_delay data g delay) := rfl
  by_cases hr : delay < 1/10 ∨ delay > 10
  · rw [e, if_pos hr]
    refine ⟨⟨fun h => absurd h (by simp), fun ⟨h1, h2⟩ => ?_⟩, fun _ => ⟨rfl, rfl⟩⟩
    rcases hr with hr | hr
    · exact absurd h1 (not_le.mpr hr)
    · exact absurd h2 (not_le.mpr hr)
  · rw [e, if_neg hr]
    push_neg at hr
    exact ⟨⟨fun _ => ⟨hr.1, hr.2⟩, fun _ => rfl⟩, fun h => absurd h (by
      push_neg
      exact ⟨hr.1, hr.2⟩)⟩

/-- Witness for C4 at concrete inputs (boundary value accepted, 15 rejected
with no store mutation). -/
theorem setdelay_accepts_iff_in_range_witness :
    ((setdelay true 1 (1/10) []).1 = .ok ↔ 1/10 ≤ (1/10 : ℚ) ∧ (1/10 : ℚ) ≤ 10) ∧
    (((15 : ℚ) < 1/10 ∨ (15 : ℚ) > 10) →
      (setdelay true 1 15 []).1 = .outOfRange ∧ (setdelay true 1 15 []).2 = []) :=
  ⟨(setdelay_accepts_iff_in_range 1 (1/10) []).1,
   (setdelay_accepts_iff_in_range 1 15 []).2⟩

/-- C5: for a guild with no stored settings object (or one without a
`"default_delay"` entry), `get_delay` returns the default of 2.0 seconds. -/
theorem get_delay_default_two (data : SettingsData) (g : Nat)
    (h : get_guild data g = none) : get_delay data g 2 = 2 := by
  simp [get_delay, h]

/-- Witness for C5: the fresh (empty) settings file stores nothing, and the
lookup returns 2. -/
theorem get_delay_default_two_witness :
    get_guild [] 7 = none ∧ get_delay [] 7 2 = 2 :=
  ⟨rfl, get_delay_default_two [] 7 rfl⟩

/-- C8: storing a delay with `set_delay` and reading it back with
`get_delay` returns the stored value, whatever default is supplied. -/
theorem set_delay_get_delay_roundtrip (data : SettingsData) (g : Nat) (d d' : ℚ) :
    get_delay (set_delay data g d) g d' = d := by
  simp [get_delay, set_delay, get_guild_set_guild_same]

/-! ### Lemmas about the registry world -/

theorem markStopped_map_sid (l : List RegSession) (sid : Nat) :
    (markStopped l sid).map (·.sid) = l.map (·.sid) := by
  induction l with
  | nil => rfl
  | cons a l ih =>
    simp only [markStopped, List.map_cons] at *
    by_cases h : a.sid = sid
    · simp only [if_pos h, ih]
    · simp only [if_neg h, ih]

theorem mem_markStopped {l : List RegSession} {sid : Nat} {s : RegSession}
    (h : s ∈ markStopped l sid) (hlive : s.state ≠ .Stopped) :
    s ∈ l ∧ s.sid ≠ sid := by
  simp only [markStopped, List.mem_map] at h
  obtain ⟨t, ht, heq⟩ := h
  by_cases hts : t.sid = sid
  · rw [if_pos hts] at heq
    subst heq
    simp at hlive
  · rw [if_neg hts] at heq
    subst heq
    exact ⟨ht, hts⟩

theorem sid_lt_of_map_eq {L M : List RegSession} (h : L.map (·.sid) = M.map (·.sid))
    {n : Nat} (hb : ∀ s ∈ M, s.sid < n) : ∀ s ∈ L, s.sid < n := by
  intro s hs
  have hmem : s.sid ∈ M.map (·.sid) := h ▸ List.mem_map_of_mem _ hs
  obtain ⟨t, ht, hts⟩ := List.mem_map.mp hmem
  exact hts ▸ hb t ht

theorem worldInv_terminate (w : World) (ch : Nat) (h : WorldInv w) :
    WorldInv (w.terminate ch) := by
  obtain ⟨hreg, hnodup, hbound⟩ := h
  unfold World.terminate
  rcases hl : w.registry.lookup ch with _ | sid
  · exact ⟨hreg, hnodup, hbound⟩
  · refine ⟨?_, ?_, ?_⟩
    · intro s hs hlive
      obtain ⟨hmem, hsid⟩ := mem_markStopped hs hlive
      have hlk := hreg s hmem hlive
      have hch : s.channel ≠ ch := by
        intro hcc
        rw [hcc, hl] at hlk
        exact hsid (Option.some.inj hlk).symm
      rw [lookup_filter_ne ch s.channel _ hch]
      exact hlk
    · rw [markStopped_map_sid]
      exact hnodup
    · intro s hs
      exact sid_lt_of_map_eq (markStopped_map_sid w.sessions sid) hbound s hs

theorem worldInv_launch_aux (w : World) (ch : Nat) (L : List RegSession)
    (hLlive : ∀ s ∈ L, s.state ≠ .Stopped →
      w.registry.lookup s.channel = some s.sid ∧ s.channel ≠ ch)
    (hLsid : L.map (·.sid) = w.sessions.map (·.sid))
    (hnodup : (w.sessions.map (·.sid)).Nodup)
    (hbound : ∀ s ∈ w.sessions, s.sid < w.nextSid) :
    WorldInv { sessions := L ++ [⟨w.nextSid, ch, .Running⟩],
               registry := (ch, w.nextSid) :: w.registry.filter (fun p => p.1 != ch),
               nextSid := w.nextSid + 1 } := by
  refine ⟨?_, ?_, ?_⟩
  · intro s hs hlive
    rcases List.mem_append.mp hs with hs | hs
    · obtain ⟨hlk, hch⟩ := hLlive s hs hlive
      have hb : (s.channel == ch) = false := by simp [hch]
      simp only [List.lookup, hb]
      rw [lookup_filter_ne ch s.channel _ hch]
      exact hlk
    · have hnew : s = ⟨w.nextSid, ch, .Running⟩ := by simpa using hs
      subst hnew
      simp [List.lookup]
  · rw [List.map_append, hLsid, List.map_cons, List.map_nil]
    have hnot : w.nextSid ∉ w.sessions.map (·.sid) := by
      intro hmem
      obtain ⟨t, ht, hts⟩ := List.mem_map.mp hmem
      have := hbound t ht
      omega
    simp [List.nodup_append, hnodup, hnot]
  · intro s hs
    show s.sid < w.nextSid + 1
    rcases List.mem_append.mp hs with hs | hs
    · have := sid_lt_of_map_eq hLsid hbound s hs
      omega
    · have hnew : s = ⟨w.nextSid, ch, .Running⟩ := by simpa using hs
      subst hnew
      simp

theorem worldInv_launch (w : World) (ch : Nat) (h : WorldInv w) :
    WorldInv (w.launch ch) := by
  obtain ⟨hreg, hnodup, hbound⟩ := h
  unfold World.launch
  rcases hl : w.registry.lookup ch with _ | sid
  · exact worldInv_launch_aux w ch w.sessions
      (fun s hs hlive => ⟨hreg s hs hlive, by
        intro hch
        have hlk := hreg s hs hlive
        rw [hch, hl] at hlk
        exact Option.noConfusion hlk⟩)
      rfl hnodup hbound
  · exact worldInv_launch_aux w ch (markStopped w.sessions sid)
      (fun s hs hlive => by
        obtain ⟨hmem, hsid⟩ := mem_markStopped hs hlive
        refine ⟨hreg s hmem hlive, ?_⟩
        intro hch
        have hlk := hreg s hmem hlive
        rw [hch, hl] at hlk
        exact hsid (Option.some.inj hlk).symm)
      (markStopped_map_sid _ _) hnodup hbound

theorem worldInv_step (w : World) (op : KaraokeOp) (h : WorldInv w) :
    WorldInv (w.step op) := by
  cases op with
  | launch ch => exact worldInv_launch w ch h
  | stop ch => exact worldInv_terminate w ch h
  | complete ch => exact worldInv_terminate w ch h

theorem worldInv_init : WorldInv World.init := by
  refine ⟨?_, ?_, ?_⟩ <;> simp [World.init]

theorem worldInv_foldl (ops : List KaraokeOp) (w : World) (h : WorldInv w) :
    WorldInv (ops.foldl World.step w) := by
  induction ops generalizing w with
  | nil => exact h
  | cons op ops ih => exact ih _ (worldInv_step w op h)

theorem liveCount_le_one (w : World) (h : WorldInv w) (ch : Nat) :
    liveCount w ch ≤ 1 := by
  obtain ⟨hreg, hnodup, -⟩ := h
  unfold liveCount
  rcases hl : w.sessions.filter (fun s => s.live && (s.channel == ch)) with _ | ⟨a, rest⟩
  · rw [hl]
    simp
  · rcases rest with _ | ⟨b, t⟩
    · rw [hl]
      simp
    · exfalso
      have hsub : ((w.sessions.filter
          (fun s => s.live && (s.channel == ch))).map (·.sid)).Nodup :=
        List.Nodup.sublist (List.Sublist.map _ (List.filter_sublist _)) hnodup
      rw [hl] at hsub
      have hane : a.sid ≠ b.sid := by
        simp only [List.map_cons, List.nodup_cons, List.mem_cons] at hsub
        exact fun he => hsub.1 (Or.inl he)
      have hafil : a ∈ w.sessions.filter (fun s => s.live && (s.channel == ch)) := by
        rw [hl]
        exact List.mem_cons_self _ _
      have hbfil : b ∈ w.sessions.filter (fun s => s.live && (s.channel == ch)) := by
        rw [hl]
        exact List.mem_cons_of_mem _ (List.mem_cons_self _ _)
      obtain ⟨ham, hap⟩ := List.mem_filter.mp hafil
      obtain ⟨hbm, hbp⟩ := List.mem_filter.mp hbfil
      simp only [Bool.and_eq_true, beq_iff_eq, RegSession.live, bne_iff_ne, ne_eq] at hap hbp
      have hla := hreg a ham hap.1
      have hlb := hreg b hbm hbp.1
      rw [hap.2] at hla
      rw [hbp.2] at hlb
      rw [hla] at hlb
      exact hane (Option.some.inj hlb)

/-! ## Claims C1, C2, C3 -/

/-- C1: the only state transitions of a `KaraokeSession` are
`Running → Paused` via `pause`, `Paused → Running` via `resume`, and
`Running|Paused → Stopped` via `stop`; once `Stopped`, none of the three
operations changes the session. -/
theorem session_state_transitions (s : KaraokeSession) :
    (s.pause.1 = { s with state := .Paused } ∧ s.state = .Running ∨ s.pause.1 = s) ∧
    (s.resume.1 = { s with state := .Running } ∧ s.state = .Paused ∨ s.resume.1 = s) ∧
    (s.stop.1.state = .Stopped ∧ (s.state = .Running ∨ s.state = .Paused) ∨ s.stop.1 = s) ∧
    (s.state = .Stopped → s.pause.1 = s ∧ s.resume.1 = s ∧ s.stop.1 = s) := by
  rcases s with ⟨ch, st, cs, ta, ls, cur, d⟩
  cases st <;>
    simp [KaraokeSession.pause, KaraokeSession.resume, KaraokeSession.stop]

/-- Witness for C1 at a concrete `Stopped` session: all three operations
leave it unchanged. -/
theorem session_state_transitions_witness :
    sampleStopped.pause.1 = sampleStopped ∧
    sampleStopped.resume.1 = sampleStopped ∧
    sampleStopped.stop.1 = sampleStopped :=
  (session_state_transitions sampleStopped).2.2.2 rfl

/-- C2: under every interleaving of launch, stop, and playback-completion
operations from process start, at most one non-`Stopped` session exists
per channel — in particular the registry never holds two live sessions for
one channel. -/
theorem registry_at_most_one_live (ops : List KaraokeOp) (ch : Nat) :
    liveCount (runOps ops) ch ≤ 1 :=
  liveCount_le_one _ (worldInv_foldl ops World.init worldInv_init) ch

/-- C3 counterexample: on a session that is already `Stopped`, calling
`stop()` twice produces zero "stopped" notices, not exactly one — so the
claim's "from any state" reading fails at this concrete input. -/
theorem stop_twice_from_stopped_counterexample :
    sampleStopped.stop.2 + sampleStopped.stop.1.stop.2 = 0 ∧ (0 : Nat) ≠ 1 := by
  constructor
  · rfl
  · decide

/-- C3 (amended): `stop()` is idempotent — a second `stop` never changes
the session or emits a notice, `stop` on an already-`Stopped` session is a
no-op, two successive `stop` calls emit exactly one "stopped" notice when
the session was live and none when it was already `Stopped` (never more
than one). -/
theorem stop_idempotent (s : KaraokeSession) :
    s.stop.1.stop = (s.stop.1, 0) ∧
    (s.state = .Stopped → s.stop = (s, 0)) ∧
    (s.state ≠ .Stopped → s.stop.2 + s.stop.1.stop.2 = 1) ∧
    s.stop.2 + s.stop.1.stop.2 ≤ 1 := by
  rcases s with ⟨ch, st, cs, ta, ls, cur, d⟩
  cases st <;> simp [KaraokeSession.stop]

/-- Witness for C3's amended statement at a concrete running session:
two successive stops produce exactly one notice. -/
theorem stop_idempotent_witness :
    sampleRunning.stop.2 + sampleRunning.stop.1.stop.2 = 1 :=
  (stop_idempotent sampleRunning).2.2.1 (by decide)

/-! ### Lemmas about the lyrics fetchers -/

theorem geniusAttempts_all_down (cleanPart : String → String)
    (down : List GeniusAttempt)
    (hdown : ∀ a ∈ down, a = .searchDown ∨ ∃ t ar, a = .pageDown t ar) :
    geniusAttempts cleanPart down = none := by
  induction down with
  | nil => rfl
  | cons a rest ih =>
    have hrest : ∀ b ∈ rest, b = .searchDown ∨ ∃ t ar, b = .pageDown t ar :=
      fun b hb => hdown b (List.mem_cons_of_mem _ hb)
    rcases hdown a (List.mem_cons_self _ _) with h | ⟨t, ar, h⟩ <;> subst h
    · simpa [geniusAttempts] using ih hrest
    · simpa [geniusAttempts] using ih hrest

theorem geniusAttempts_shape (cleanPart : String → String)
    (attempts : List GeniusAttempt) (d : LyricsDict)
    (h : geniusAttempts cleanPart attempts = some d) :
    d.map Prod.fst = ["title", "artist", "lyrics"] := by
  induction attempts with
  | nil => exact absurd h (by simp [geniusAttempts])
  | cons a rest ih =>
    cases a with
    | searchDown => exact ih (by simpa [geniusAttempts] using h)
    | noHits => exact absurd h (by simp [geniusAttempts])
    | hitNoPath t ar => exact absurd h (by simp [geniusAttempts])
    | pageDown t ar => exact ih (by simpa [geniusAttempts] using h)
    | pageOk t ar segs =>
      simp only [geniusAttempts] at h
      split at h <;> (injection h with h; subst h; rfl)

/-! ## Claims C6, C7, C9, C10 -/

/-- C6: the Genius fetch returns the same failure value (`None`) whether
the provider finds no song (empty hit list) or every attempt fails with
an error; the command handler therefore behaves identically on the two
environments, and when the fallback also fails it sends exactly the
single could-not-fetch notice. -/
theorem notfound_error_same_outcome (tokenSet : Bool) (cleanPart : String → String)
    (down : List GeniusAttempt)
    (hdown : ∀ a ∈ down, a = .searchDown ∨ ∃ t ar, a = .pageDown t ar)
    (query : String) (ovhRes : Option LyricsDict) :
    fetch_lyrics_from_genius_async tokenSet cleanPart [.noHits] = none ∧
    fetch_lyrics_from_genius_async tokenSet cleanPart down = none ∧
    lyrics_command query (fetch_lyrics_from_genius_async tokenSet cleanPart [.noHits]) ovhRes =
      lyrics_command query (fetch_lyrics_from_genius_async tokenSet cleanPart down) ovhRes ∧
    (ovhRes = none →
      lyrics_command query (fetch_lyrics_from_genius_async tokenSet cleanPart down) ovhRes =
        [.couldNotFetch query]) := by
  have h1 : fetch_lyrics_from_genius_async tokenSet cleanPart [.noHits] = none := by
    cases tokenSet <;> simp [fetch_lyrics_from_genius_async, geniusAttempts]
  have h2 : fetch_lyrics_from_genius_async tokenSet cleanPart down = none := by
    cases tokenSet <;>
      simp [fetch_lyrics_from_genius_async, geniusAttempts_all_down cleanPart down hdown]
  refine ⟨h1, h2, by rw [h1, h2], ?_⟩
  intro hovh
  rw [h2, hovh]
  rfl

/-- Witness for C6: with a single erroring attempt and a failing fallback,
the handler sends exactly the one could-not-fetch notice. -/
theorem notfound_error_same_outcome_witness :
    lyrics_command "q" (fetch_lyrics_from_genius_async true id [.searchDown]) none =
      [.couldNotFetch "q"] :=
  (notfound_error_same_outcome true id [.searchDown]
    (fun a ha => Or.inl (List.mem_singleton.mp ha)) "q" none).2.2.2 rfl

/-- C7: for every query and every environment, each lyrics fetcher either
fails (`None`) or returns a dict with exactly the keys `"title"`,
`"artist"`, `"lyrics"` — no other result shape is possible, from either
provider (hence from their combination in the command handler). -/
theorem lyrics_fetch_shape (tokenSet : Bool) (cleanPart : String → String)
    (attempts : List GeniusAttempt) (query : String) (ovhResp : Option String) :
    (∀ d, fetch_lyrics_from_genius_async tokenSet cleanPart attempts = some d →
      d.map Prod.fst = ["title", "artist", "lyrics"]) ∧
    (∀ d, fetch_lyrics_from_lyrics_ovh query ovhResp = some d →
      d.map Prod.fst = ["title", "artist", "lyrics"]) := by
  constructor
  · intro d h
    cases tokenSet with
    | false => exact absurd h (by simp [fetch_lyrics_from_genius_async])
    | true =>
      exact geniusAttempts_shape cleanPart attempts d
        (by simpa [fetch_lyrics_from_genius_async] using h)
  · intro d h
    unfold fetch_lyrics_from_lyrics_ovh at h
    rcases hsp : split_artist_title query with ⟨oa, t⟩
    rw [hsp] at h
    cases oa with
    | none => exact absurd h (by simp)
    | some artist =>
      cases ovhResp with
      | none => exact absurd h (by simp)
      | some lyr =>
        have h' : (if lyr = "" then (none : Option LyricsDict)
            else some [("title", t), ("artist", artist), ("lyrics", lyr)]) = some d := h
        by_cases hl : lyr = ""
        · rw [if_pos hl] at h'
          exact absurd h' (by simp)
        · rw [if_neg hl] at h'
          injection h' with h'
          subst h'
          rfl

/-- Witness for C7 at a concrete successful Genius environment. -/
theorem lyrics_fetch_shape_witness :
    ([("title", "T"), ("artist", "A"), ("lyrics", "L")] : LyricsDict).map Prod.fst =
      ["title", "artist", "lyrics"] :=
  (lyrics_fetch_shape true id [.pageOk (some "T") (some "A") ["L"]] "q" none).1
    [("title", "T"), ("artist", "A"), ("lyrics", "L")] (by rfl)

/-- C9: when the Genius search succeeds and the song page is fetched but
the extraction finds no lyrics segments, the Genius fetch returns a
*successful* dict whose `"lyrics"` entry is the empty string; the handler
therefore never consults the lyrics.ovh fallback (its outcome cannot
influence the result) and sends exactly the single "no lyrics text was
scraped" notice. -/
theorem scraped_empty_no_fallback (cleanPart : String → String)
    (title artist : Option String) (rest : List GeniusAttempt)
    (query : String) (ovhRes ovhRes' : Option LyricsDict) :
    fetch_lyrics_from_genius_async true cleanPart (.pageOk title artist [] :: rest) =
      some [("title", pyOr title "Unknown"), ("artist", pyOr artist "Unknown"),
            ("lyrics", "")] ∧
    lyrics_command query
        (fetch_lyrics_from_genius_async true cleanPart (.pageOk title artist [] :: rest))
        ovhRes =
      lyrics_command query
        (fetch_lyrics_from_genius_async true cleanPart (.pageOk title artist [] :: rest))
        ovhRes' ∧
    lyrics_command query
        (fetch_lyrics_from_genius_async true cleanPart (.pageOk title artist [] :: rest))
        ovhRes =
      [.foundButNoText (pyOr title "Unknown") (pyOr artist "Unknown") "genius"] := by
  have hfetch : fetch_lyrics_from_genius_async true cleanPart
      (.pageOk title artist [] :: rest) =
      some [("title", pyOr title "Unknown"), ("artist", pyOr artist "Unknown"),
            ("lyrics", "")] := by
    simp [fetch_lyrics_from_genius_async, geniusAttempts]
  have htrim : pyStrip "" = "" := rfl
  refine ⟨hfetch, by rw [hfetch]; rfl, ?_⟩
  rw [hfetch]
  simp [lyrics_command, List.lookup, htrim]

/-! ### Lemmas about the DM auto-reply -/

theorem dmRepliesTo_closed (u : Nat) (msgs : List IncomingMsg) :
    ∀ cache, dmRepliesTo u cache msgs =
      if u ∈ cache then 0 else if msgs.any (isDMFrom u) then 1 else 0 := by
  induction msgs with
  | nil =>
    intro cache
    by_cases h : u ∈ cache <;> simp [dmRepliesTo, h]
  | cons m ms ih =>
    intro cache
    by_cases hbot : m.authorIsBot
    · have hstep : on_message_dm cache m = (cache, false) := by
        simp [on_message_dm, hbot]
      have hdf : isDMFrom u m = false := by simp [isDMFrom, hbot]
      simp [dmRepliesTo, hstep, hdf, ih cache]
    · by_cases hdm : m.isDM
      · by_cases hin : m.authorId ∈ cache
        · have hstep : on_message_dm cache m = (cache, false) := by
            simp [on_message_dm, hbot, hdm, hin]
          by_cases hu : m.authorId = u
          · have hucache : u ∈ cache := hu ▸ hin
            simp [dmRepliesTo, hstep, ih cache, hucache]
          · have hdf : isDMFrom u m = false := by simp [isDMFrom, hu]
            simp [dmRepliesTo, hstep, hdf, ih cache]
        · have hstep : on_message_dm cache m = (m.authorId :: cache, true) := by
            simp [on_message_dm, hbot, hdm, hin]
          by_cases hu : m.authorId = u
          · have hnotin : u ∉ cache := hu ▸ hin
            have hdf : isDMFrom u m = true := by simp [isDMFrom, hbot, hdm, hu]
            simp [dmRepliesTo, hstep, hu, ih, hnotin, hdf]
          · have hu' : ¬(u = m.authorId) := fun h => hu h.symm
            have hdf : isDMFrom u m = false := by simp [isDMFrom, hu]
            by_cases hin2 : u ∈ cache
            · simp [dmRepliesTo, hstep, hdf, ih, List.mem_cons, hu, hu', hin2]
            · simp [dmRepliesTo, hstep, hdf, ih, List.mem_cons, hu, hu', hin2]
      · have hstep : on_message_dm cache m = (cache, false) := by
          simp [on_message_dm, hbot, hdm]
        have hdf : isDMFrom u m = false := by simp [isDMFrom, hdm]
        simp [dmRepliesTo, hstep, hdf, ih cache]

/-- C10: from process start (empty replied cache), over every trace of
incoming messages, the DM auto-reply is sent to a given user at most once
— exactly once when the trace contains a non-bot direct message from that
user and never otherwise; and a single dispatch sends the reply exactly
when the message is a non-bot DM whose author is not yet in the cache. -/
theorem dm_autoreply_at_most_once (u : Nat) (msgs : List IncomingMsg) :
    dmRepliesTo u [] msgs ≤ 1 ∧
    dmRepliesTo u [] msgs = (if msgs.any (isDMFrom u) then 1 else 0) ∧
    (∀ cache m, (on_message_dm cache m).2 = true ↔
      m.authorIsBot = false ∧ m.isDM = true ∧ m.authorId ∉ cache) := by
  have hc := dmRepliesTo_closed u msgs []
  simp only [List.not_mem_nil, if_false] at hc
  refine ⟨by rw [hc]; split <;> omega, by simpa using hc, ?_⟩
  intro cache m
  by_cases hbot : m.authorIsBot <;> by_cases hdm : m.isDM <;>
    by_cases hin : m.authorId ∈ cache <;> simp [on_message_dm, hbot, hdm, hin]

/-- Witness for C10: two successive DMs from the same user, from process
start, produce at most one auto-reply. -/
theorem dm_autoreply_at_most_once_witness :
    dmRepliesTo 42 [] [⟨42, false, true⟩, ⟨42, false, true⟩] ≤ 1 :=
  (dm_autoreply_at_most_once 42 [⟨42, false, true⟩, ⟨42, false, true⟩]).1
